import Mathlib

/-!
Shallow embedding of the core of the scalable-url-shortener repository:
the base-62 encoder and short-code generator (`convert-api/main.go`), the
Redis-backed counter initialization and allocation (`initRedis`,
`getNextID`), the record-store lookup and the two redirect handlers
(`redirect-api/main.go` and the cached variant), and the write path
(`POST /api/v1/urls`).

Machine integers are modelled as `Int`/`Nat` (the Go values involved stay
far below the `int64` range, and no claim concerns overflow).  Database
timestamps are omitted: no claim mentions them.
-/

/-! ## Encoder (`encodeBase62`, `generateShortCode` in convert-api/main.go) -/

/-- The digit alphabet `BASE62_CHARS` from `encodeBase62`. -/
def BASE62_CHARS : List Char :=
  "0123456789ABCDEFGHIJKLMNOPQRSTUVWXYZabcdefghijklmnopqrstuvwxyz".toList

/-- Indexing `BASE62_CHARS[d]`; the Go code only indexes with `num % 62`,
which is always in range, so the default is never used. -/
def base62digit (d : Nat) : Char := BASE62_CHARS.getD d ' '

/-- The digit-extraction loop of `encodeBase62`
(`for num > 0 { result = BASE62_CHARS[num%62] + result; num = num / 62 }`),
written with a fuel argument so that it is structural recursion; `fuel = num`
is always enough since `num / 62 < num` for positive `num`. -/
def renderAux : Nat → Nat → List Char
  | 0, _ => []
  | fuel + 1, num =>
    if num = 0 then []
    else renderAux fuel (num / 62) ++ [base62digit (num % 62)]

/-- The digit string produced by the `encodeBase62` loop for a non-negative
starting value. -/
def base62Render (num : Nat) : List Char := renderAux num num

/-- Go's `fmt.Sprintf("%07s", result)`: left-pad to a minimum width of 7.
The `0` flag makes Go pad with the zero digit `'0'` (Go's `fmt` applies the
zero flag to strings as well as numbers); when the string is already at
least 7 characters long no padding is added. -/
def sprintf07s (s : List Char) : List Char :=
  List.replicate (7 - s.length) '0' ++ s

/-- `encodeBase62` from convert-api/main.go.  A zero input returns `"0"`
before the padding step; for a negative input the loop body never runs
(its condition is `num > 0`) and the empty string is padded. -/
def encodeBase62 (num : Int) : String :=
  if num = 0 then "0"
  else String.mk (sprintf07s (if 0 < num then base62Render num.toNat else []))

/-- Two's-complement wrap-around of Go `int` (`int64`) arithmetic: the
representative of `n` modulo `2^64` in `[-2^63, 2^63)`.  The literals are
`2^63` and `2^64`. -/
def wrap64 (n : Int) : Int :=
  (n + 9223372036854775808) % 18446744073709551616 - 9223372036854775808

/-- `generateShortCode` from convert-api/main.go.  The Go function draws
`randomSalt := rand.Intn(1000)` internally; the salt is a parameter here
(`rand.Intn(1000)` always returns a value in `[0, 1000)`).
`combinedNumber := (id * multiplier) + randomSalt` is Go `int` (`int64`)
arithmetic, which wraps silently, hence the `wrap64`. -/
def generateShortCode (id : Int) (salt : Nat) : String :=
  encodeBase62 (wrap64 (id * 1000 + salt))

/-! ## Counter (Allocator): `initRedis` and `getNextID` -/

/-- The `startingValue` constant from `initRedis` (the configured counter
floor). -/
def startingValue : Int := 56800235584

/-- The counter-initialization step of `initRedis`: read the stored value
(`none` models `redis.Nil`, the key being absent); if it is absent or below
the floor, set the counter to `startingValue - 1`, otherwise leave it
untouched.  Returns the counter value after initialization. -/
def initCounter (current : Option Int) : Int :=
  match current with
  | none => startingValue - 1
  | some v => if v < startingValue then startingValue - 1 else v

/-- `getNextID`: Redis `INCR` increments the counter by one and returns the
new value.  The pair is (returned id, new counter state). -/
def getNextID (counter : Int) : Int × Int :=
  (counter + 1, counter + 1)

/-- A sequence of `getNextID` allocation steps against the shared counter,
one per caller tag in the list; returns the (caller, returned id) pairs in
issue order.  Models any interleaving of callers: the atomic `INCR` makes
each step see the counter left by the previous step. -/
def allocTrace (c0 : Int) : List Nat → List (Nat × Int)
  | [] => []
  | caller :: rest => (caller, (getNextID c0).1) :: allocTrace (getNextID c0).2 rest

/-! ## Record store and redirect handlers -/

/-- A row of the `urls` table (timestamps omitted; no claim concerns them). -/
structure URLRecord where
  id : Nat
  originalURL : String
  shortCode : String
deriving DecidableEq

/-- Outcomes of a store lookup: `notFound` models `sql.ErrNoRows`
(wrapped by the Go code as the error string "short code not found"),
`unavailable` any other database error. -/
inductive StoreError where
  | notFound
  | unavailable
deriving DecidableEq

/-- `getURLByShortCode` (identical in redirect-api/main.go and in the
cached variant): `SELECT ... WHERE short_code = $1`, returning the unique
matching row or `notFound`.  The store is the list of persisted rows; the
`UNIQUE` constraint on `short_code` means at most one row matches. -/
def getURLByShortCode (store : List URLRecord) (shortCode : String) :
    Except StoreError URLRecord :=
  match store.find? (fun r => r.shortCode == shortCode) with
  | some r => Except.ok r
  | none => Except.error StoreError.notFound

/-- HTTP responses the handlers can write. -/
inductive HttpResp where
  | badRequest
  | notFound
  | serverError
  | redirectTo (url : String)
deriving DecidableEq

/-- The `GET /:shortCode` handler of redirect-api/main.go: `400` on an
empty code, `404` when the lookup reports `notFound`, `500` on any other
lookup error, otherwise a `302` redirect to the stored original URL. -/
def redirectHandler (store : List URLRecord) (shortCode : String) : HttpResp :=
  if shortCode = "" then HttpResp.badRequest
  else
    match getURLByShortCode store shortCode with
    | Except.error StoreError.notFound => HttpResp.notFound
    | Except.error StoreError.unavailable => HttpResp.serverError
    | Except.ok r => HttpResp.redirectTo r.originalURL

/-- Outcome of `getURLByShortCodeCache` (Redis `GET url:<code>`): a hit
returns the cached URL with a nil error; a miss (`redis.Nil`) and an
unreachable cache both return a non-nil error, which is all the handler
inspects. -/
inductive CacheGetOutcome where
  | hit (url : String)
  | miss
  | unavailable
deriving DecidableEq

/-- Observable trace of one request through the cached redirect handler:
every response write attempted in order (the HTTP layer sends the first
one; later writes are ignored), whether the record store was queried, and
the outcome of the cache `Set` if one was attempted (`saveURLCache`
discards this value). -/
structure ReadTrace where
  responses : List HttpResp
  storeQueried : Bool
  cacheSetResult : Option Bool
deriving DecidableEq

/-- The first response write of a trace is the one the client receives. -/
def firstResponse (t : ReadTrace) : HttpResp :=
  t.responses.headD HttpResp.serverError

/-- The `GET /:shortCode` handler of the cached service variant: on a cache
hit it writes the redirect to the cached URL but, lacking a `return`, falls
through and still runs the store lookup; on any cache `Get` error it goes
straight to the store; a successful store read attempts `saveURLCache`,
whose outcome (`cacheSetOk`) is discarded. -/
def redirectHandlerCached (store : List URLRecord) (cache : CacheGetOutcome)
    (cacheSetOk : Bool) (shortCode : String) : ReadTrace :=
  if shortCode = "" then ⟨[HttpResp.badRequest], false, none⟩
  else
    let pre : List HttpResp :=
      match cache with
      | CacheGetOutcome.hit u => [HttpResp.redirectTo u]
      | _ => []
    match getURLByShortCode store shortCode with
    | Except.error StoreError.notFound => ⟨pre ++ [HttpResp.notFound], true, none⟩
    | Except.error StoreError.unavailable => ⟨pre ++ [HttpResp.serverError], true, none⟩
    | Except.ok r => ⟨pre ++ [HttpResp.redirectTo r.originalURL], true, some cacheSetOk⟩

/-! ## Write path (`POST /api/v1/urls` in convert-api/main.go) -/

/-- Errors of `saveURL`: the `UNIQUE` constraint on `short_code` rejects a
duplicate code; any error is reported to the handler the same way. -/
inductive SaveError where
  | duplicateShortCode
deriving DecidableEq

/-- `saveURL`: `INSERT INTO urls (original_url, short_code) ... RETURNING ...`.
The store assigns the serial row id; the unique constraint on `short_code`
fails the insert when the code is already present. -/
def saveURL (store : List URLRecord) (nextDbId : Nat)
    (originalURL shortCode : String) : Except SaveError (URLRecord × List URLRecord) :=
  if store.any (fun r => r.shortCode == shortCode) then
    Except.error SaveError.duplicateShortCode
  else
    let row : URLRecord := ⟨nextDbId, originalURL, shortCode⟩
    Except.ok (row, row :: store)

/-- Shared state seen by the write path: the Redis counter, the store's
next serial row id, and the persisted rows. -/
structure SysState where
  counter : Int
  nextDbId : Nat
  store : List URLRecord
deriving DecidableEq

/-- Responses of the create endpoint. -/
inductive CreateResp where
  | badRequest
  | serverError
  | created (shortCode : String) (originalUrl : String)
deriving DecidableEq

/-- The `POST /api/v1/urls` handler: validate the URL (`url.Parse`,
abstracted as the predicate `validURL`; syntax only), allocate an id with
`getNextID`, encode it with `generateShortCode` (the randomly drawn salt is
a parameter), persist with `saveURL`, and answer `201` with the code and
the original URL.  The handler does not touch the resolution cache. -/
def createURL (validURL : String → Bool) (st : SysState)
    (originalUrl : String) (salt : Nat) : SysState × CreateResp :=
  if validURL originalUrl = false then (st, CreateResp.badRequest)
  else
    let id := (getNextID st.counter).1
    let st1 : SysState := { st with counter := (getNextID st.counter).2 }
    let code := generateShortCode id salt
    match saveURL st1.store st1.nextDbId originalUrl code with
    | Except.error _ => (st1, CreateResp.serverError)
    | Except.ok (_, store1) =>
      ({ st1 with nextDbId := st1.nextDbId + 1, store := store1 },
       CreateResp.created code originalUrl)

/-! ## Spec-side definitions (for refinement comparison) -/

/-- The spec's rendering rule, written from its words: the base-62 digits
of `n` over the alphabet `0-9, A-Z, a-z`, most-significant digit first
(Mathlib's `Nat.digits` is least-significant first, hence the reverse). -/
def specRender (n : Nat) : List Char :=
  (Nat.digits 62 n).reverse.map base62digit

/-- The spec's claimed minimum-width rule: left-pad to a total width of 7
with the space character. -/
def specSpacePad7 (s : List Char) : List Char :=
  List.replicate (7 - s.length) ' ' ++ s

/-- Proof helper: strip leading zero digits. -/
def stripZeros (s : List Char) : List Char :=
  s.dropWhile (fun c => c == '0')

/-! ## Encoder lemmas -/

/-- The fuelled digit loop computes the reversed base-62 digits whenever
the fuel is at least the starting value. -/
theorem renderAux_eq_digits (fuel : Nat) :
    ∀ num : Nat, num ≤ fuel →
      renderAux fuel num = (Nat.digits 62 num).reverse.map base62digit := by
  induction fuel with
  | zero =>
    intro num h
    have : num = 0 := Nat.le_zero.mp h
    subst this
    simp [renderAux]
  | succ fuel ih =>
    intro num h
    by_cases hz : num = 0
    · subst hz; simp [renderAux]
    · have hpos : 0 < num := Nat.pos_of_ne_zero hz
      have hdiv : num / 62 ≤ fuel := by
        have := Nat.div_lt_self hpos (by norm_num : 1 < 62)
        omega
      rw [renderAux, if_neg hz, ih _ hdiv,
        Nat.digits_def' (by norm_num : 1 < 62) hpos,
        List.reverse_cons, List.map_append]
      rfl

/-- The loop of `encodeBase62` agrees with the spec's digit rendering. -/
theorem base62Render_eq_digits (num : Nat) :
    base62Render num = specRender num :=
  renderAux_eq_digits num num le_rfl

/-- `encodeBase62` on a natural-number input. -/
theorem encodeBase62_natCast (n : Nat) :
    encodeBase62 (n : Int) =
      if n = 0 then "0" else String.mk (sprintf07s (base62Render n)) := by
  unfold encodeBase62
  by_cases h : n = 0
  · subst h; simp
  · have h0 : ((n : Int) = 0) = False := by
      simp [Int.natCast_eq_zero, h]
    have hp : 0 < (n : Int) := by
      exact_mod_cast Nat.pos_of_ne_zero h
    rw [if_neg (by simp [h]), if_neg h, if_pos hp, Int.toNat_natCast]

/-- The padded result always has at least 7 characters. -/
theorem sprintf07s_length (s : List Char) : 7 ≤ (sprintf07s s).length := by
  simp [sprintf07s]
  omega

/-- `encodeBase62` never returns the empty string. -/
theorem encodeBase62_ne_empty (num : Int) : encodeBase62 num ≠ "" := by
  unfold encodeBase62
  split
  · decide
  · intro h
    have hdata := congrArg String.data h
    simp only [String.data] at hdata
    have := sprintf07s_length (if 0 < num then base62Render num.toNat else [])
    rw [hdata] at this
    simp at this

/-- `generateShortCode` never returns the empty string. -/
theorem generateShortCode_ne_empty (id : Int) (salt : Nat) :
    generateShortCode id salt ≠ "" :=
  encodeBase62_ne_empty _

/-- The digit map is injective on the alphabet's index range. -/
theorem base62digit_inj :
    ∀ a < 62, ∀ b < 62, base62digit a = base62digit b → a = b := by decide

/-- For a positive value the rendered digit string is nonempty and its
leading character is not the zero digit. -/
theorem specRender_head :
    ∀ n : Nat, 0 < n → ∃ c t, specRender n = c :: t ∧ c ≠ '0' := by
  intro n
  induction n using Nat.strong_induction_on with
  | _ n ih =>
    intro hn
    unfold specRender
    rw [Nat.digits_def' (by norm_num : 1 < 62) hn, List.reverse_cons, List.map_append]
    by_cases hq : n / 62 = 0
    · rw [hq]
      refine ⟨base62digit (n % 62), [], by simp, ?_⟩
      have hlt : n % 62 < 62 := Nat.mod_lt _ (by norm_num)
      have hsmall : n < 62 := (Nat.div_eq_zero_iff (by norm_num)).mp hq
      have hne : n % 62 ≠ 0 := by
        rw [Nat.mod_eq_of_lt hsmall]
        omega
      intro hc
      have h0 : base62digit 0 = '0' := by decide
      exact hne (base62digit_inj (n % 62) hlt 0 (by norm_num) (hc.trans h0.symm))
    · obtain ⟨c, t, hct, hcne⟩ :=
        ih (n / 62) (Nat.div_lt_self hn (by norm_num)) (Nat.pos_of_ne_zero hq)
      unfold specRender at hct
      rw [hct]
      exact ⟨c, t ++ [base62digit (n % 62)], by simp, hcne⟩

/-- Stripping leading zeros undoes left zero-padding of a string whose
first character is not the zero digit. -/
theorem stripZeros_pad (k : Nat) (c : Char) (t : List Char) (hc : c ≠ '0') :
    stripZeros (List.replicate k '0' ++ (c :: t)) = c :: t := by
  induction k with
  | zero =>
    simp only [List.replicate, List.nil_append, stripZeros, List.dropWhile_cons]
    simp [hc]
  | succ k ih =>
    simpa only [List.replicate_succ, List.cons_append, stripZeros,
      List.dropWhile_cons, beq_self_eq_true, if_true] using ih

/-- Mapping through the digit alphabet is injective on digit lists. -/
theorem map_base62digit_inj :
    ∀ l1 l2 : List Nat, (∀ d ∈ l1, d < 62) → (∀ d ∈ l2, d < 62) →
      l1.map base62digit = l2.map base62digit → l1 = l2 := by
  intro l1
  induction l1 with
  | nil =>
    intro l2 _ _ h
    cases l2 with
    | nil => rfl
    | cons b t2 => simp at h
  | cons a t ih =>
    intro l2 h1 h2 h
    cases l2 with
    | nil => simp at h
    | cons b t2 =>
      simp only [List.map_cons, List.cons.injEq] at h
      have hab : a = b :=
        base62digit_inj a (h1 a (by simp)) b (h2 b (by simp)) h.1
      subst hab
      rw [ih t2 (fun d hd => h1 d (by simp [hd])) (fun d hd => h2 d (by simp [hd])) h.2]

/-- `encodeBase62` is injective on the natural numbers. -/
theorem encodeBase62_nat_inj (m n : Nat)
    (h : encodeBase62 (m : Int) = encodeBase62 (n : Int)) : m = n := by
  rw [encodeBase62_natCast, encodeBase62_natCast] at h
  by_cases hm : m = 0 <;> by_cases hn : n = 0
  · omega
  · exfalso
    rw [if_pos hm, if_neg hn] at h
    have hdata : ['0'] = sprintf07s (base62Render n) := congrArg String.data h
    have hlen := congrArg List.length hdata
    have := sprintf07s_length (base62Render n)
    simp at hlen
    omega
  · exfalso
    rw [if_neg hm, if_pos hn] at h
    have hdata : sprintf07s (base62Render m) = ['0'] := congrArg String.data h
    have hlen := congrArg List.length hdata
    have := sprintf07s_length (base62Render m)
    simp at hlen
    omega
  · rw [if_neg hm, if_neg hn] at h
    have h' : sprintf07s (base62Render m) = sprintf07s (base62Render n) := by
      have := congrArg String.data h
      simpa using this
    obtain ⟨c1, t1, h1, hc1⟩ := specRender_head m (Nat.pos_of_ne_zero hm)
    obtain ⟨c2, t2, h2, hc2⟩ := specRender_head n (Nat.pos_of_ne_zero hn)
    have e1 : base62Render m = c1 :: t1 := (base62Render_eq_digits m).trans h1
    have e2 : base62Render n = c2 :: t2 := (base62Render_eq_digits n).trans h2
    have hr : base62Render m = base62Render n := by
      have hs := congrArg stripZeros h'
      simp only [sprintf07s, e1, e2] at hs
      rw [stripZeros_pad _ c1 t1 hc1, stripZeros_pad _ c2 t2 hc2] at hs
      rw [e1, e2, hs]
    have hmap : (Nat.digits 62 m).reverse.map base62digit =
        (Nat.digits 62 n).reverse.map base62digit := by
      have := (base62Render_eq_digits m).symm.trans
        (hr.trans (base62Render_eq_digits n))
      simpa [specRender] using this
    have hrev : (Nat.digits 62 m).reverse = (Nat.digits 62 n).reverse :=
      map_base62digit_inj _ _
        (fun d hd => Nat.digits_lt_base (by norm_num) (List.mem_reverse.mp hd))
        (fun d hd => Nat.digits_lt_base (by norm_num) (List.mem_reverse.mp hd)) hmap
    have hdig : Nat.digits 62 m = Nat.digits 62 n := by
      have := congrArg List.reverse hrev
      simpa using this
    calc m = Nat.ofDigits 62 (Nat.digits 62 m) := (Nat.ofDigits_digits 62 m).symm
      _ = Nat.ofDigits 62 (Nat.digits 62 n) := by rw [hdig]
      _ = n := Nat.ofDigits_digits 62 n

/-- The all-zero code cannot be a space-padded rendering of any positive
value: the rendering's leading character is a nonzero digit, and any
nonempty space padding starts with a space. -/
theorem spacePad_ne_all_zero (n : Nat) (hn : 0 < n) :
    String.mk (specSpacePad7 (specRender n)) ≠ "0000000" := by
  obtain ⟨c, t, hct, hc⟩ := specRender_head n hn
  intro h
  have hd : specSpacePad7 (specRender n) = ['0', '0', '0', '0', '0', '0', '0'] :=
    congrArg String.data h
  rw [hct] at hd
  unfold specSpacePad7 at hd
  cases hk : 7 - (c :: t).length with
  | zero =>
    rw [hk, List.replicate_zero] at hd
    simp at hd
    exact hc hd.1
  | succ k =>
    rw [hk, List.replicate_succ] at hd
    simp at hd

/-! ## Claim theorems -/

/-- C3 counterexample: `encodeBase62 0` (and hence `Encode(0, 0)`) returns
the one-character string `"0"`: the early return skips the padding step, so
the result is not six pad characters followed by `'0'` (it does not even
have width 7). -/
theorem encode_zero_counterexample :
    encodeBase62 0 = "0" ∧ (encodeBase62 0).length ≠ 7 := by decide

/-- C3 (amended): `Encode(0, 0)` renders the single digit `"0"` and
returns it as-is; the early return bypasses the minimum-width padding, so
the result is the unpadded one-character string `"0"`. -/
theorem encode_zero_unpadded :
    generateShortCode 0 0 = "0" ∧ encodeBase62 0 = "0" := by decide

/-- C10 counterexample: `encodeBase62 (-1)` is `"0000000"`, seven zero
digits, not seven space characters: Go's `%07s` pads with the zero digit. -/
theorem encode_negative_counterexample :
    encodeBase62 (-1) = "0000000" ∧ encodeBase62 (-1) ≠ "       " := by decide

/-- C10 (amended): for every negative input the digit-extraction loop never
executes and the empty rendering is padded to width 7, but the `0` flag of
`fmt.Sprintf("%07s", ...)` fills with the zero digit, so the result is
seven `'0'` characters (which are base-62 digits), not seven spaces. -/
theorem encode_negative_all_zero (num : Int) (h : num < 0) :
    encodeBase62 num = "0000000" := by
  unfold encodeBase62
  rw [if_neg (by omega : ¬num = 0), if_neg (by omega : ¬0 < num)]
  rfl

/-- Witness for C10's amended theorem at `num = -1`. -/
theorem encode_negative_all_zero_witness :
    (-1 : Int) < 0 ∧ encodeBase62 (-1) = "0000000" :=
  ⟨by decide, encode_negative_all_zero (-1) (by decide)⟩

/-- C4 counterexample: at `id = 0`, `salt = 1` the code produces
`"0000001"`, padded with the zero digit, while the claim's space-padded
rendering of `combined = 1` is `"      1"`; and at `id = 10^16`, `salt = 0`
the `int64` product wraps to a negative value, so the code produces
`"0000000"`, which is no padded rendering of `combined = 10^19` at all. -/
theorem generateShortCode_space_pad_counterexample :
    generateShortCode 0 1 = "0000001" ∧
    String.mk (specSpacePad7 (specRender ((0 : Int) * 1000 + (1 : Nat)).toNat)) = "      1" ∧
    generateShortCode 0 1 ≠
      String.mk (specSpacePad7 (specRender ((0 : Int) * 1000 + (1 : Nat)).toNat)) ∧
    generateShortCode 10000000000000000 0 = "0000000" ∧
    generateShortCode 10000000000000000 0 ≠
      String.mk (specSpacePad7
        (specRender ((10000000000000000 : Int) * 1000 + (0 : Nat)).toNat)) := by
  have h1 : Nat.digits 62 1 = [1] := by
    rw [Nat.digits_def' (by norm_num : 1 < 62) (by norm_num : 0 < 1)]
    norm_num
  have hn : ((0 : Int) * 1000 + (1 : Nat)).toNat = 1 := by decide
  refine ⟨by decide, ?_, ?_, by decide, ?_⟩
  · rw [hn]; simp only [specRender, h1]; decide
  · rw [hn]; simp only [specRender, h1]; decide
  · have hpos : 0 < ((10000000000000000 : Int) * 1000 + (0 : Nat)).toNat := by decide
    rw [show generateShortCode 10000000000000000 0 = "0000000" from by decide]
    exact fun h => spacePad_ne_all_zero _ hpos h.symm

/-- C4 (amended): for every non-negative id and every salt in `[0, 1000)`
with `combined = id * 1000 + salt` inside the `int64` range (below `2^63`,
so the Go arithmetic does not wrap), the short code is the base-62
rendering of `combined` over the alphabet `0-9, A-Z, a-z`,
most-significant digit first, except that `combined = 0` is returned as
the unpadded `"0"`; a positive rendering shorter than 7 characters is
left-padded to width 7 with the zero digit `'0'` (not the space
character). -/
theorem generateShortCode_algorithm (id : Int) (salt : Nat)
    (hid : 0 ≤ id) (hs : salt < 1000)
    (hrange : id * 1000 + salt < 9223372036854775808) :
    generateShortCode id salt =
      if id * 1000 + salt = 0 then "0"
      else
        String.mk
          (List.replicate (7 - (specRender (id * 1000 + salt).toNat).length) '0' ++
            specRender (id * 1000 + salt).toNat) := by
  have hnn : 0 ≤ id * 1000 + (salt : Int) := by positivity
  have hw : wrap64 (id * 1000 + salt) = id * 1000 + salt := by
    unfold wrap64
    omega
  unfold generateShortCode encodeBase62
  rw [hw]
  by_cases h0 : id * 1000 + (salt : Int) = 0
  · rw [if_pos h0, if_pos h0]
  · rw [if_neg h0, if_neg h0, if_pos (by omega : 0 < id * 1000 + (salt : Int))]
    rw [show sprintf07s (base62Render (id * 1000 + (salt : Int)).toNat) =
        List.replicate (7 - (specRender (id * 1000 + (salt : Int)).toNat).length) '0' ++
          specRender (id * 1000 + (salt : Int)).toNat from by
      simp only [sprintf07s, base62Render_eq_digits]]

/-- Witness for C4's amended theorem at `id = 1`, `salt = 0`. -/
theorem generateShortCode_algorithm_witness :
    (0 : Int) ≤ 1 ∧ (0 : Nat) < 1000 ∧
    (1 : Int) * 1000 + (0 : Nat) < 9223372036854775808 ∧
    generateShortCode 1 0 =
      (if (1 : Int) * 1000 + (0 : Nat) = 0 then "0"
       else
        String.mk
          (List.replicate (7 - (specRender ((1 : Int) * 1000 + (0 : Nat)).toNat).length) '0' ++
            specRender ((1 : Int) * 1000 + (0 : Nat)).toNat)) :=
  ⟨by decide, by decide, by decide,
   generateShortCode_algorithm 1 0 (by decide) (by decide) (by decide)⟩

/-- C5 counterexample: the distinct non-negative ids `10^16` and
`10^16 + 1` (salts 0) both make `combined = id * 1000 + salt` wrap to a
negative `int64`, and both encode to the same code `"0000000"`, so the
claimed distinctness fails for unrestricted non-negative ids. -/
theorem shortCode_wrap_counterexample :
    (10000000000000000 : Int) ≠ 10000000000000001 ∧
    generateShortCode 10000000000000000 0 = "0000000" ∧
    generateShortCode 10000000000000001 0 = "0000000" ∧
    generateShortCode 10000000000000000 0 = generateShortCode 10000000000000001 0 := by
  decide

/-- C5 (amended): distinct non-negative ids give distinct short codes, for
any two salts in `[0, 1000)`, provided both combined numbers
`id * 1000 + salt` stay inside the `int64` range (below `2^63`, so the Go
arithmetic does not wrap): the combined numbers then differ, base-62
rendering is injective on positives, and the zero-digit padding cannot
identify two distinct renderings because a positive rendering never starts
with the zero digit (the `combined = 0` code `"0"` has width 1 while every
padded code has width at least 7). -/
theorem shortCode_injective_in_id (id1 id2 : Int) (s1 s2 : Nat)
    (hid1 : 0 ≤ id1) (hid2 : 0 ≤ id2) (h1 : s1 < 1000) (h2 : s2 < 1000)
    (hr1 : id1 * 1000 + s1 < 9223372036854775808)
    (hr2 : id2 * 1000 + s2 < 9223372036854775808)
    (hne : id1 ≠ id2) :
    generateShortCode id1 s1 ≠ generateShortCode id2 s2 := by
  intro h
  unfold generateShortCode at h
  have hw1 : wrap64 (id1 * 1000 + s1) = id1 * 1000 + s1 := by
    unfold wrap64
    omega
  have hw2 : wrap64 (id2 * 1000 + s2) = id2 * 1000 + s2 := by
    unfold wrap64
    omega
  rw [hw1, hw2] at h
  have e1 : id1 * 1000 + (s1 : Int) = ((id1.toNat * 1000 + s1 : Nat) : Int) := by
    push_cast
    rw [Int.toNat_of_nonneg hid1]
  have e2 : id2 * 1000 + (s2 : Int) = ((id2.toNat * 1000 + s2 : Nat) : Int) := by
    push_cast
    rw [Int.toNat_of_nonneg hid2]
  rw [e1, e2] at h
  have := encodeBase62_nat_inj _ _ h
  omega

/-- Witness for C5's amended theorem at `id1 = 1`, `id2 = 2`,
`s1 = s2 = 0`. -/
theorem shortCode_injective_in_id_witness :
    (0 : Int) ≤ 1 ∧ (1 : Int) ≠ 2 ∧
    (1 : Int) * 1000 + (0 : Nat) < 9223372036854775808 ∧
    generateShortCode 1 0 ≠ generateShortCode 2 0 :=
  ⟨by decide, by decide, by decide,
   shortCode_injective_in_id 1 2 0 0 (by decide) (by decide) (by decide) (by decide)
     (by decide) (by decide) (by decide)⟩

/-- C6: if the stored counter value is absent or below the configured
floor, initialization sets it to `floor - 1` and the first `getNextID`
then returns exactly the floor; otherwise the stored value is left
untouched. -/
theorem counter_floor_init (cur : Option Int) :
    ((cur = none ∨ ∃ v, cur = some v ∧ v < startingValue) →
      initCounter cur = startingValue - 1 ∧
      (getNextID (initCounter cur)).1 = startingValue) ∧
    (∀ v, cur = some v → ¬v < startingValue → initCounter cur = v) := by
  constructor
  · rintro (rfl | ⟨v, rfl, hv⟩)
    · refine ⟨rfl, ?_⟩
      simp only [initCounter, getNextID]
      omega
    · refine ⟨by simp [initCounter, hv], ?_⟩
      simp only [initCounter, hv, if_pos, getNextID]
      omega
  · rintro v rfl hv
    simp [initCounter, hv]

/-- Witness for C6: an absent counter is set to `floor - 1` and the first
allocation returns the floor; a counter already at the floor is untouched. -/
theorem counter_floor_init_witness :
    (initCounter none = startingValue - 1 ∧
      (getNextID (initCounter none)).1 = startingValue) ∧
    initCounter (some startingValue) = startingValue :=
  ⟨(counter_floor_init none).1 (Or.inl rfl),
   (counter_floor_init (some startingValue)).2 startingValue rfl (lt_irrefl startingValue)⟩

/-- Every id issued in an allocation trace is strictly above the starting
counter value. -/
theorem allocTrace_snd_lt (l : List Nat) :
    ∀ c0 : Int, ∀ p ∈ allocTrace c0 l, c0 < p.2 := by
  induction l with
  | nil =>
    intro c0 p hp
    simp [allocTrace] at hp
  | cons a rest ih =>
    intro c0 p hp
    simp only [allocTrace, getNextID, List.mem_cons] at hp
    rcases hp with rfl | hp
    · simp
    · have := ih (c0 + 1) p hp
      omega

/-- The ids of an allocation trace are strictly increasing in issue
order. -/
theorem allocTrace_pairwise (l : List Nat) :
    ∀ c0 : Int, (allocTrace c0 l).Pairwise (fun p q => p.2 < q.2) := by
  induction l with
  | nil =>
    intro c0
    simp [allocTrace]
  | cons a rest ih =>
    intro c0
    simp only [allocTrace, getNextID, List.pairwise_cons]
    exact ⟨fun q hq => allocTrace_snd_lt rest (c0 + 1) q hq, ih (c0 + 1)⟩

/-- C7: over any sequence of atomic `getNextID` steps on the shared
counter, from any mix of callers, the returned integers are pairwise
distinct, and the subsequence returned to any single caller is strictly
increasing in call order. -/
theorem alloc_distinct_and_monotone (c0 : Int) (callers : List Nat) :
    ((allocTrace c0 callers).map Prod.snd).Pairwise (fun a b => a ≠ b) ∧
    ∀ caller : Nat,
      (((allocTrace c0 callers).filter (fun p => p.1 == caller)).map Prod.snd).Pairwise
        (fun a b => a < b) := by
  have hp := allocTrace_pairwise callers c0
  constructor
  · rw [List.pairwise_map]
    exact hp.imp (fun h => ne_of_lt h)
  · intro caller
    rw [List.pairwise_map]
    exact List.Pairwise.sublist (List.filter_sublist _) hp

/-- C8: a short code with no matching record makes the direct store lookup
return `notFound`, and the redirect handler answer `404` (neither a
redirect nor a `500`). -/
theorem absent_code_yields_notFound (store : List URLRecord) (code : String)
    (habsent : ∀ r ∈ store, r.shortCode ≠ code) (hne : code ≠ "") :
    getURLByShortCode store code = Except.error StoreError.notFound ∧
    redirectHandler store code = HttpResp.notFound := by
  have hfind : store.find? (fun r => r.shortCode == code) = none := by
    rw [List.find?_eq_none]
    intro r hr
    simpa using habsent r hr
  refine ⟨by simp [getURLByShortCode, hfind], ?_⟩
  simp [redirectHandler, hne, getURLByShortCode, hfind]

/-- Witness for C8 on the empty store and the code `"zzz"`. -/
theorem absent_code_yields_notFound_witness :
    ("zzz" : String) ≠ "" ∧
    (getURLByShortCode [] "zzz" = Except.error StoreError.notFound ∧
      redirectHandler [] "zzz" = HttpResp.notFound) :=
  ⟨by decide, absent_code_yields_notFound [] "zzz" (by simp) (by decide)⟩

/-- C9: caching is best-effort on the read path: the outcome of the cache
`Set` after a store-backed read is discarded, so it changes neither the
response writes nor anything else observable; and on any cache `Get`
failure (miss or unavailability alike: the code only checks the error for
nil) the handler falls through to the record store and produces exactly
the store-only handler's response, so a cache fault alone never fails a
read. -/
theorem cache_best_effort (store : List URLRecord) (code : String)
    (cache cache' : CacheGetOutcome) (ok1 ok2 : Bool) (hne : code ≠ "")
    (hfault : cache' = CacheGetOutcome.miss ∨ cache' = CacheGetOutcome.unavailable) :
    (redirectHandlerCached store cache ok1 code).responses =
      (redirectHandlerCached store cache ok2 code).responses ∧
    (redirectHandlerCached store cache' ok1 code).storeQueried = true ∧
    firstResponse (redirectHandlerCached store cache' ok1 code) =
      redirectHandler store code := by
  refine ⟨?_, ?_⟩
  · simp only [redirectHandlerCached, if_neg hne]
    cases getURLByShortCode store code with
    | ok r => rfl
    | error e => cases e <;> rfl
  · rcases hfault with rfl | rfl <;>
    · simp only [redirectHandlerCached, redirectHandler, if_neg hne]
      cases getURLByShortCode store code with
      | ok r => exact ⟨rfl, rfl⟩
      | error e => cases e <;> exact ⟨rfl, rfl⟩

/-- Witness for C9 on a one-row store with code `"abc"`, comparing the two
cache-set outcomes and a cache miss. -/
theorem cache_best_effort_witness :
    ("abc" : String) ≠ "" ∧
    ((redirectHandlerCached [⟨1, "https://e.com", "abc"⟩] (CacheGetOutcome.hit "x") true "abc").responses =
      (redirectHandlerCached [⟨1, "https://e.com", "abc"⟩] (CacheGetOutcome.hit "x") false "abc").responses ∧
     (redirectHandlerCached [⟨1, "https://e.com", "abc"⟩] CacheGetOutcome.miss true "abc").storeQueried = true ∧
     firstResponse (redirectHandlerCached [⟨1, "https://e.com", "abc"⟩] CacheGetOutcome.miss true "abc") =
       redirectHandler [⟨1, "https://e.com", "abc"⟩] "abc") :=
  ⟨by decide,
   cache_best_effort [⟨1, "https://e.com", "abc"⟩] "abc" (CacheGetOutcome.hit "x")
     CacheGetOutcome.miss true false (by decide) (Or.inl rfl)⟩

/-- C2: the cached redirect handler is missing a `return` after the
cache-hit redirect, so on a hit it writes the redirect to the cached URL
(which is what the client receives) but still performs the record-store
query in the same request, contradicting the contract of responding
immediately without consulting the store.  Evaluated at the failing input:
code `"abc1234"` cached as `"https://example.com"`. -/
theorem cache_hit_still_queries_store :
    firstResponse (redirectHandlerCached [⟨1, "https://example.com", "abc1234"⟩]
        (CacheGetOutcome.hit "https://example.com") true "abc1234") =
      HttpResp.redirectTo "https://example.com" ∧
    (redirectHandlerCached [⟨1, "https://example.com", "abc1234"⟩]
        (CacheGetOutcome.hit "https://example.com") true "abc1234").storeQueried = true := by
  decide

/-- C1: when the write path accepts a syntactically valid URL `u`
(validation abstracted as the predicate `validURL`, modelling `url.Parse`)
and answers `201 created` with short code `c`, resolving `c` immediately
afterwards redirects to exactly `u`: through the plain redirect handler
unconditionally, and through the cached handler as well since the write
path leaves the cache cold for the fresh code (a miss or an unavailable
cache both fall through to the store). -/
theorem create_then_redirect_roundtrip (validURL : String → Bool) (st : SysState)
    (u : String) (salt : Nat) (c : String) (cache : CacheGetOutcome) (ok : Bool)
    (hvalid : validURL u = true)
    (hsucc : (createURL validURL st u salt).2 = CreateResp.created c u)
    (hcold : cache = CacheGetOutcome.miss ∨ cache = CacheGetOutcome.unavailable) :
    redirectHandler (createURL validURL st u salt).1.store c = HttpResp.redirectTo u ∧
    firstResponse (redirectHandlerCached (createURL validURL st u salt).1.store cache ok c) =
      HttpResp.redirectTo u := by
  have hcne : generateShortCode (getNextID st.counter).1 salt ≠ "" :=
    generateShortCode_ne_empty _ _
  unfold createURL at hsucc ⊢
  rw [hvalid] at hsucc ⊢
  simp only [Bool.true_eq_false, if_false] at hsucc ⊢
  cases hany : st.store.any
      (fun r => r.shortCode == generateShortCode (getNextID st.counter).1 salt) with
  | true =>
    simp [saveURL, hany] at hsucc
  | false =>
    simp only [saveURL, hany, Bool.false_eq_true, if_false] at hsucc ⊢
    injection hsucc with hc hu
    subst hc
    constructor
    · simp only [redirectHandler, if_neg hcne, getURLByShortCode]
      rw [List.find?_cons_of_pos _ (by simp)]
    · rcases hcold with rfl | rfl <;>
      · simp only [redirectHandlerCached, if_neg hcne, getURLByShortCode]
        rw [List.find?_cons_of_pos _ (by simp)]
        rfl

/-- Witness for C1: creating `"https://example.com"` in the empty system
yields the code `"00000G8"` (id 1, salt 0), and both redirect paths then
redirect to `"https://example.com"`. -/
theorem create_then_redirect_roundtrip_witness :
    (fun _ : String => true) "https://example.com" = true ∧
    (createURL (fun _ => true) ⟨0, 1, []⟩ "https://example.com" 0).2 =
      CreateResp.created "00000G8" "https://example.com" ∧
    (redirectHandler (createURL (fun _ => true) ⟨0, 1, []⟩ "https://example.com" 0).1.store
        "00000G8" = HttpResp.redirectTo "https://example.com" ∧
      firstResponse (redirectHandlerCached
          (createURL (fun _ => true) ⟨0, 1, []⟩ "https://example.com" 0).1.store
          CacheGetOutcome.miss true "00000G8") = HttpResp.redirectTo "https://example.com") :=
  ⟨rfl, by decide,
   create_then_redirect_roundtrip (fun _ => true) ⟨0, 1, []⟩ "https://example.com" 0
     "00000G8" CacheGetOutcome.miss true rfl (by decide) (Or.inl rfl)⟩
